import Mathlib

/- Verification development for the log_reader repository.

   The core log-analysis pipeline (timestamp parsing, pattern
   classification, task segmentation, stop-point detection, historical
   trend analysis, complaint correlation) is shallow-embedded below.

   Modelling conventions:
   - a log line is modelled by its list of characters, without the
     trailing newline character.  Since lines carry no interior newline,
     the regex wildcard dot is modelled as matching every character;
   - Python floats are modelled by rationals;
   - Python datetime values are modelled by their absolute number of
     seconds on the proleptic Gregorian calendar (rata-die based), so
     that datetime subtraction followed by total_seconds corresponds to
     subtraction of the models, and datetime comparison to comparison. -/

namespace LogReader

/-- One atom of a regular expression as used by the pattern tables of the
analyzers: a single-character predicate, or the greedy wildcard run
corresponding to a dot followed by a star in the pattern text. -/
inductive Tok where
  | single (p : Char → Bool)
  | dotstar

/-- All suffixes of a character list, longest first (the candidate
resumption points of a wildcard run or of an unanchored search). -/
def suffixesOf : List Char → List (List Char)
  | [] => [[]]
  | c :: cs => (c :: cs) :: suffixesOf cs

/-- Match a token sequence against an exact position in the text
(anchored at the head of the character list, allowed to stop early).
A wildcard run consumes any number of characters, so it matches exactly
when the rest of the tokens match at some suffix. -/
def matchHere : List Tok → List Char → Bool
  | [], _ => true
  | Tok.single p :: ps, cs =>
    match cs with
    | c :: cs2 => p c && matchHere ps cs2
    | [] => false
  | Tok.dotstar :: ps, cs => (suffixesOf cs).any (fun s => matchHere ps s)

/-- Model of re.search used as a boolean test: does the token sequence
match at some position of the line? -/
def searchTok (toks : List Tok) (cs : List Char) : Bool :=
  (suffixesOf cs).any (fun s => matchHere toks s)

/-- Case-insensitive single-character literal (the task, anomaly and
event pattern banks are searched with re.IGNORECASE). -/
def ciTok (c : Char) : Tok := Tok.single (fun x => x.toLower == c.toLower)

/-- Case-insensitive literal word. -/
def litCI (s : String) : List Tok := s.data.map ciTok

/-- A decimal-digit atom (backslash-d in the pattern text). -/
def digitTok : Tok := Tok.single Char.isDigit

/-- A character-class atom. -/
def oneOf (l : List Char) : Tok := Tok.single (fun x => l.contains x)

/- ---------------------------------------------------------------
   Calendar arithmetic: proleptic Gregorian dates to absolute days,
   used to model datetime values by their absolute second count.
   --------------------------------------------------------------- -/

def isLeap (y : ℕ) : Bool := (y % 4 == 0 && y % 100 != 0) || y % 400 == 0

def daysInMonth (y m : ℕ) : ℕ :=
  if m == 2 then (if isLeap y then 29 else 28)
  else if m == 4 || m == 6 || m == 9 || m == 11 then 30 else 31

/-- Days since 1970-01-01 of a civil date (standard era/year-of-era
computation; callers only pass year at least 1, month 1..12). -/
def daysFromCivil (y m d : ℕ) : ℤ :=
  let y2 := if m ≤ 2 then y - 1 else y
  let era := y2 / 400
  let yoe := y2 % 400
  let mp := if 2 < m then m - 3 else m + 9
  let doy := (153 * mp + 2) / 5 + d - 1
  let doe := yoe * 365 + yoe / 4 - yoe / 100 + doy
  ((era * 146097 + doe : ℕ) : ℤ) - 719468

/-- Absolute second count of a civil datetime. -/
def civilSecs (y mo d h mi s : ℕ) : ℤ :=
  86400 * daysFromCivil y mo d + ((3600 * h + 60 * mi + s : ℕ) : ℤ)

def digitVal (c : Char) : ℕ := c.toNat - '0'.toNat

def digitsToNat (cs : List Char) : ℕ := cs.foldl (fun a c => 10 * a + digitVal c) 0

/-- Model of datetime.strptime with format YYYY-MM-DD HH:MM:SS applied to
the given characters, returning the parsed instant as absolute seconds.
none models a ValueError: wrong shape, unconverted trailing data, or a
field out of range (month 1..12, day 1..days-in-month, hour to 23,
minute to 59, second to 59 — strptime admits second 60 and 61 but the
datetime constructor then rejects them, so the call still raises). -/
def strptimeSecs (g : List Char) : Option ℤ :=
  match g with
  | [y1, y2, y3, y4, s1, o1, o2, s2, d1, d2, s3, h1, h2, s4, i1, i2, s5, e1, e2] =>
    if ([y1, y2, y3, y4, o1, o2, d1, d2, h1, h2, i1, i2, e1, e2].all Char.isDigit
        && s1 == '-' && s2 == '-' && s3 == ' ' && s4 == ':' && s5 == ':') then
      let y := digitsToNat [y1, y2, y3, y4]
      let mo := digitsToNat [o1, o2]
      let d := digitsToNat [d1, d2]
      let h := digitsToNat [h1, h2]
      let mi := digitsToNat [i1, i2]
      let s := digitsToNat [e1, e2]
      if (1 ≤ y && 1 ≤ mo && mo ≤ 12 && 1 ≤ d && d ≤ daysInMonth y mo
          && h ≤ 23 && mi ≤ 59 && s ≤ 59 : Bool) then
        some (civilSecs y mo d h mi s)
      else none
    else none
  | _ => none

/- ---------------------------------------------------------------
   Timestamp pattern searchers.  Each models re.search of one concrete
   pattern of the parser's priority list, returning the text captured
   by group one of the leftmost match.
   --------------------------------------------------------------- -/

/-- Item of a fixed-shape pattern: an exact run of digits, or a literal. -/
inductive SItem where
  | dig (n : ℕ)
  | lit (c : Char)

def takeDigits (n : ℕ) (cs : List Char) : Option (List Char × List Char) :=
  let pre := cs.take n
  if pre.length == n && pre.all Char.isDigit then some (pre, cs.drop n) else none

/-- Match a fixed-shape pattern anchored at the current position,
returning the matched text. -/
def matchShape : List SItem → List Char → Option (List Char)
  | [], _ => some []
  | SItem.dig n :: rest, cs =>
    match takeDigits n cs with
    | some (pre, cs2) => (matchShape rest cs2).map (fun g => pre ++ g)
    | none => none
  | SItem.lit c :: rest, cs =>
    match cs with
    | c2 :: cs2 => if c2 == c then (matchShape rest cs2).map (fun g => c :: g) else none
    | [] => none

/-- Generic leftmost search: try an anchored matcher at every position,
left to right, as re.search does. -/
def searchWith {α : Type} (m : List Char → Option α) : List Char → Option α
  | [] => m []
  | c :: cs =>
    match m (c :: cs) with
    | some r => some r
    | none => searchWith m cs

/-- Shape of the standard timestamp pattern (four digits, dash, two
digits, dash, two digits, space, two digits, colon, two digits, colon,
two digits). -/
def stdShape : List SItem :=
  [SItem.dig 4, SItem.lit '-', SItem.dig 2, SItem.lit '-', SItem.dig 2, SItem.lit ' ',
   SItem.dig 2, SItem.lit ':', SItem.dig 2, SItem.lit ':', SItem.dig 2]

/-- Shape of the colon-milliseconds timestamp pattern (the standard shape
followed by a colon and three digits). -/
def msShape : List SItem := stdShape ++ [SItem.lit ':', SItem.dig 3]

/-- Searcher for the standard timestamp pattern. -/
def searchP1 (cs : List Char) : Option (List Char) := searchWith (matchShape stdShape) cs

/-- Searcher for the colon-milliseconds timestamp pattern. -/
def searchP3 (cs : List Char) : Option (List Char) := searchWith (matchShape msShape) cs

/-- Searcher for the 13-digit epoch-milliseconds timestamp pattern. -/
def searchP13 (cs : List Char) : Option (List Char) :=
  searchWith (matchShape [SItem.dig 13]) cs

/-- Anchored matcher for the bracketed ROS pattern: an opening square
bracket, a nonempty digit run (group one), a dot, a nonempty digit run,
and a closing square bracket.  The digit runs are greedy; since a digit
is neither a dot nor a bracket, maximal munch is exact. -/
def matchBracket (cs : List Char) : Option (List Char) :=
  match cs with
  | '[' :: rest =>
    let d1 := rest.takeWhile Char.isDigit
    if d1.isEmpty then none
    else
      match rest.drop d1.length with
      | '.' :: rest2 =>
        let d2 := rest2.takeWhile Char.isDigit
        if d2.isEmpty then none
        else
          match rest2.drop d2.length with
          | ']' :: _ => some d1
          | _ => none
      | _ => none
  | _ => none

/-- Searcher for the bracketed ROS timestamp pattern. -/
def searchP2 (cs : List Char) : Option (List Char) := searchWith matchBracket cs

/-- One conversion attempt of the pattern loop in parse_timestamp of the
advanced analyzer: given the captured group of the pattern that matched,
dispatch on its colon count exactly as the source does (a colon count of
two implies the membership test on the colon also passes, so the two
conditions of the first branch collapse).  none models both a
ValueError — caught, and the loop continues — and a group shape
selecting no branch, where the loop body falls through. -/
def tryConvert (g : List Char) : Option ℤ :=
  if g.count ':' = 2 then strptimeSecs g
  else if g.count ':' = 3 then strptimeSecs (g.take 19)
  else none

/-- The advanced analyzer's timestamp pattern priority list: standard,
bracketed ROS, colon-milliseconds. -/
def timestamp_patterns : List (List Char → Option (List Char)) :=
  [searchP1, searchP2, searchP3]

/-- The pattern loop of parse_timestamp: try each pattern in priority
order; on a match, attempt conversion; a failed conversion continues
with the remaining patterns (the except-continue of the source). -/
def parseLoop : List (List Char → Option (List Char)) → List Char → Option ℤ
  | [], _ => none
  | f :: fs, line =>
    match f line with
    | none => parseLoop fs line
    | some g =>
      match tryConvert g with
      | some t => some t
      | none => parseLoop fs line

/-- parse_timestamp of the advanced analyzer. -/
def parse_timestamp (line : List Char) : Option ℤ :=
  parseLoop timestamp_patterns line

/- ---------------------------------------------------------------
   Pattern banks of the advanced analyzer (searched case-insensitively).
   --------------------------------------------------------------- -/

/-- The task-phase pattern bank, in table iteration order. -/
def task_patterns : List (String × List (List Tok)) :=
  [("task_start",
    [litCI "wait_for_delivery_task entry", litCI "任务开始",
     litCI "clean" ++ [Tok.dotstar] ++ litCI "start",
     litCI "mission" ++ [Tok.dotstar] ++ litCI "start"]),
   ("task_end",
    [litCI "finish task", litCI "任务结束",
     litCI "clean" ++ [Tok.dotstar] ++ litCI "finish",
     litCI "mission" ++ [Tok.dotstar] ++ litCI "complete",
     litCI "navigation no task"]),
   ("charging",
    [litCI "charging", litCI "充电", litCI "charge station", litCI "电桩"]),
   ("debugging",
    [litCI "debug", litCI "调试", litCI "test mode"]),
   ("map_maintenance",
    [litCI "map" ++ [Tok.dotstar] ++ litCI "maintenance", litCI "地图维护",
     litCI "slam" ++ [Tok.dotstar] ++ litCI "build"]),
   ("idle",
    [litCI "idle", litCI "闲置", litCI "waiting"])]

/-- First category of a pattern table whose bank matches the line (table
iteration order is a contract: first matching category wins). -/
def findPhase : List (String × List (List Tok)) → List Char → Option String
  | [], _ => none
  | (ph, pats) :: rest, line =>
    if pats.any (fun p => searchTok p line) then some ph else findPhase rest line

/-- detect_task_phase of the advanced analyzer. -/
def detect_task_phase (line : List Char) : Option String :=
  findPhase task_patterns line

/-- The anomaly pattern bank, in table iteration order. -/
def anomaly_patterns : List (String × List (List Tok)) :=
  [("sensor_offline",
    [litCI "sensor" ++ [Tok.dotstar] ++ litCI "offline",
     litCI "传感器" ++ [Tok.dotstar] ++ litCI "掉线",
     litCI "motor offline",
     litCI "get transform" ++ [Tok.dotstar] ++ litCI "fail"]),
   ("mechanical_issue",
    [litCI "脚落异常",
     litCI "机械" ++ [Tok.dotstar] ++ litCI "异常",
     litCI "collision", litCI "碰撞"]),
   ("cpu_high",
    [litCI "cpu" ++ [Tok.dotstar] ++ litCI "load" ++ [Tok.dotstar] ++
       [oneOf ['7', '8', '9'], digitTok],
     litCI "cpu" ++ [Tok.dotstar] ++ [oneOf ['7', '8', '9'], digitTok] ++ litCI "%",
     litCI "cpu" ++ [Tok.dotstar] ++ litCI "100%"]),
   ("speed_anomaly",
    [litCI "速度异常",
     litCI "speed" ++ [Tok.dotstar] ++ litCI "anomaly",
     litCI "VCLra", litCI "Ara"]),
   ("localization_drop",
    [litCI "定位" ++ [Tok.dotstar] ++ litCI "下降",
     litCI "localization" ++ [Tok.dotstar] ++ litCI "drop",
     litCI "score" ++ [Tok.dotstar] ++ litCI "0"])]

/- ---------------------------------------------------------------
   Position extraction (patterns searched case-sensitively, numeric
   capture groups converted with Python float semantics).
   --------------------------------------------------------------- -/

/-- The character class of the numeric capture groups: minus, digit, dot. -/
def numClass (c : Char) : Bool := c == '-' || c == '.' || c.isDigit

/-- Case-sensitive literal prefix; returns the remainder on success. -/
def matchLit (s : List Char) (cs : List Char) : Option (List Char) :=
  match s, cs with
  | [], rest => some rest
  | a :: s2, c :: cs2 => if c == a then matchLit s2 cs2 else none
  | _ :: _, [] => none

/-- Greedy nonempty run of the numeric class (maximal munch is exact
because the characters following a group in every pattern are not in
the class). -/
def grabNum (cs : List Char) : Option (List Char × List Char) :=
  let g := cs.takeWhile numClass
  if g.isEmpty then none else some (g, cs.drop g.length)

def expectChar (c : Char) : List Char → Option (List Char)
  | c2 :: cs => if c2 == c then some cs else none
  | [] => none

/-- Anchored matcher for a pattern of the form: literal prefix, three
comma-separated numeric groups, closing character. -/
def matchNums3 (pre : List Char) (closeC : Char) (cs : List Char) :
    Option (List Char × List Char × List Char) := do
  let r1 ← matchLit pre cs
  let (g1, r2) ← grabNum r1
  let r3 ← expectChar ',' r2
  let (g2, r4) ← grabNum r3
  let r5 ← expectChar ',' r4
  let (g3, r6) ← grabNum r5
  let _ ← expectChar closeC r6
  pure (g1, g2, g3)

/-- Anchored matcher for an opening bracket, two comma-separated numeric
groups, and a closing bracket. -/
def matchNums2Bracket (cs : List Char) : Option (List Char × List Char) := do
  let r1 ← expectChar '[' cs
  let (g1, r2) ← grabNum r1
  let r3 ← expectChar ',' r2
  let (g2, r4) ← grabNum r3
  let _ ← expectChar ']' r4
  pure (g1, g2)

/-- Anchored matcher for a literal prefix, an opening parenthesis, two
comma-separated numeric groups, and a closing parenthesis. -/
def matchNums2Paren (pre : List Char) (cs : List Char) :
    Option (List Char × List Char) := do
  let r1 ← matchLit pre cs
  let (g1, r2) ← grabNum r1
  let r3 ← expectChar ',' r2
  let (g2, r4) ← grabNum r3
  let _ ← expectChar ')' r4
  pure (g1, g2)

/-- Rightmost successful anchored match, modelling the backtracking of a
greedy wildcard run placed before the matched part of the pattern. -/
def lastMatch {α : Type} (m : List Char → Option α) : List Char → Option α
  | [] => m []
  | c :: cs =>
    match lastMatch m cs with
    | some r => some r
    | none => m (c :: cs)

/-- Anchored matcher of the charge-station pattern: literal prefix, a
greedy wildcard run, then a bracketed pair of numeric groups (the greedy
run selects the rightmost bracketed pair of the remainder). -/
def matchCharge (cs : List Char) : Option (List Char × List Char) :=
  match matchLit ("Charge station pose".data) cs with
  | none => none
  | some rest => lastMatch matchNums2Bracket rest

/-- Model of Python float applied to a capture of the numeric class:
an optional leading minus, then digits with at most one dot and at least
one digit somewhere; anything else raises and yields none. -/
def pyFloat (cs : List Char) : Option ℚ :=
  let neg := cs.head? == some '-'
  let body := if neg then cs.tail else cs
  let ip := body.takeWhile Char.isDigit
  let rest := body.drop ip.length
  match rest with
  | [] =>
    if ip.isEmpty then none
    else some ((if neg then -1 else 1) * (digitsToNat ip : ℚ))
  | '.' :: frac =>
    if frac.all Char.isDigit && !(ip.isEmpty && frac.isEmpty) then
      some ((if neg then -1 else 1) *
        ((digitsToNat ip : ℚ) + (digitsToNat frac : ℚ) / (10 : ℚ) ^ frac.length))
    else none
  | _ => none

structure PositionRecord where
  timestamp : ℤ
  type : String
  x : ℚ
  y : ℚ
  z : Option ℚ
  source : String
deriving DecidableEq, Repr

/-- The slam-pose entry of the position pattern loop: if the pattern
matches, attempt float conversion of the groups; a conversion failure
skips the pattern (the loop continues with the next one). -/
def slamTry (line : List Char) (ts : ℤ) : Option PositionRecord :=
  match searchWith (matchNums3 ("Slam pose: [".data) ']') line with
  | none => none
  | some (a, b, c) =>
    match pyFloat a, pyFloat b, pyFloat c with
    | some x, some y, some z => some ⟨ts, "slam", x, y, some z, "slam_pose"⟩
    | _, _, _ => none

/-- The odom-pose entry of the position pattern loop. -/
def odomTry (line : List Char) (ts : ℤ) : Option PositionRecord :=
  match searchWith (matchNums3 ("pose(".data) ')') line with
  | none => none
  | some (a, b, c) =>
    match pyFloat a, pyFloat b, pyFloat c with
    | some x, some y, some z => some ⟨ts, "odometry", x, y, some z, "odom_pose"⟩
    | _, _, _ => none

/-- The charge-station entry of the position pattern loop. -/
def chargeTry (line : List Char) (ts : ℤ) : Option PositionRecord :=
  match searchWith matchCharge line with
  | none => none
  | some (a, b) =>
    match pyFloat a, pyFloat b with
    | some x, some y => some ⟨ts, "reference", x, y, none, "charge_station"⟩
    | _, _ => none

/-- The goal-pose entry of the position pattern loop. -/
def goalTry (line : List Char) (ts : ℤ) : Option PositionRecord :=
  match searchWith (matchNums2Paren ("goal_pose=(".data)) line with
  | none => none
  | some (a, b) =>
    match pyFloat a, pyFloat b with
    | some x, some y => some ⟨ts, "reference", x, y, none, "goal_pose"⟩
    | _, _ => none

/-- extract_position_info of the advanced analyzer: try the position
patterns in table order; the first pattern that both matches and
converts wins; a match whose conversion fails falls through to the next
pattern. -/
def extract_position_info (line : List Char) (ts : ℤ) : Option PositionRecord :=
  match slamTry line ts with
  | some p => some p
  | none =>
    match odomTry line ts with
    | some p => some p
    | none =>
      match chargeTry line ts with
      | some p => some p
      | none => goalTry line ts

/- ---------------------------------------------------------------
   Anomaly detection and severity assessment.
   --------------------------------------------------------------- -/

structure AnomalyEvent where
  timestamp : ℤ
  type : String
  description : List Char
  severity : String
deriving DecidableEq, Repr

/-- The static type-to-severity table (a lookup with default low). -/
def severity_map (aty : String) : String :=
  if aty == "sensor_offline" then "medium"
  else if aty == "mechanical_issue" then "high"
  else if aty == "cpu_high" then "high"
  else if aty == "speed_anomaly" then "medium"
  else if aty == "localization_drop" then "high"
  else "low"

/-- Does the needle occur contiguously in the haystack (the Python
membership test on strings, case-sensitive)? -/
def startsWithL : List Char → List Char → Bool
  | [], _ => true
  | _ :: _, [] => false
  | a :: ns, c :: cs => a == c && startsWithL ns cs

def strIn (needle : List Char) : List Char → Bool
  | [] => startsWithL needle []
  | c :: cs => startsWithL needle (c :: cs) || strIn needle cs

/-- assess_anomaly_severity: base severity from the static table,
overridden to high when the raw line contains ERROR, else to medium when
it contains WARN. -/
def assess_anomaly_severity (aty : String) (line : List Char) : String :=
  let base := severity_map aty
  if strIn ("ERROR".data) line then "high"
  else if strIn ("WARN".data) line then "medium"
  else base

/-- The nested loop of detect_anomalies: for each anomaly type in table
order, each matching pattern appends one event of that type.  The
description field models the stripped line by the line itself (the model
carries line content without surrounding whitespace). -/
def anomaliesFor : List (String × List (List Tok)) → List Char → ℤ → List AnomalyEvent
  | [], _, _ => []
  | (aty, pats) :: rest, line, ts =>
    pats.filterMap (fun p =>
      if searchTok p line then
        some ⟨ts, aty, line, assess_anomaly_severity aty line⟩
      else none)
      ++ anomaliesFor rest line ts

/-- detect_anomalies of the advanced analyzer. -/
def detect_anomalies (line : List Char) (ts : ℤ) : List AnomalyEvent :=
  anomaliesFor anomaly_patterns line ts

/- ---------------------------------------------------------------
   The log file walker of the advanced analyzer (analyze_log_file).
   --------------------------------------------------------------- -/

structure Event where
  timestamp : ℤ
  line : List Char
  position : Option PositionRecord
  anomalies : List AnomalyEvent
deriving DecidableEq, Repr

structure OpenTask where
  start_time : ℤ
  type : String
  file : String
  events : List Event
deriving DecidableEq, Repr

structure TaskSegment where
  start_time : ℤ
  type : String
  file : String
  events : List Event
  end_time : ℤ
  duration : ℤ
deriving DecidableEq, Repr

structure AnalyzerState where
  task_segments : List TaskSegment
  position_data : List PositionRecord
  anomalies : List AnomalyEvent
deriving DecidableEq, Repr

def emptyState : AnalyzerState := ⟨[], [], []⟩

/-- Closing a task: end time is the closing line's timestamp, duration
is end minus start in seconds (the local start-time variable of the
source always equals the open task's start time: both are set and
cleared together). -/
def closeTask (c : OpenTask) (ts : ℤ) : TaskSegment :=
  ⟨c.start_time, c.type, c.file, c.events, ts, ts - c.start_time⟩

/-- The open/close decision of the walker on one line: a task-start
phase opens a task only when none is open; a task-end phase closes the
open task, emitting one segment; every other case leaves the state as
it is. -/
def taskTransition (file : String) (ts : ℤ) (phase : Option String)
    (cur : Option OpenTask) : Option OpenTask × List TaskSegment :=
  match phase, cur with
  | some p, none =>
    if p == "task_start" then (some ⟨ts, "task", file, []⟩, []) else (none, [])
  | some p, some c =>
    if p == "task_end" then (none, [closeTask c ts]) else (some c, [])
  | none, cur => (cur, [])

/-- One line of analyze_log_file: parse the timestamp (no timestamp
skips the line entirely), run the phase transition, extract position and
anomalies into the global collections, and append a per-line event to
the task that is open after the transition. -/
def stepLine (file : String) (acc : AnalyzerState × Option OpenTask)
    (line : List Char) : AnalyzerState × Option OpenTask :=
  match parse_timestamp line with
  | none => acc
  | some ts =>
    let phase := detect_task_phase line
    let tr := taskTransition file ts phase acc.2
    let position := extract_position_info line ts
    let anoms := detect_anomalies line ts
    let st : AnalyzerState :=
      ⟨acc.1.task_segments ++ tr.2,
       acc.1.position_data ++ position.toList,
       acc.1.anomalies ++ anoms⟩
    match tr.1 with
    | some c =>
      (st, some ⟨c.start_time, c.type, c.file, c.events ++ [⟨ts, line, position, anoms⟩]⟩)
    | none => (st, none)

/-- analyze_log_file of the advanced analyzer: a single pass over the
lines of one file; the per-file open-task pointer starts empty and a
task still open at end of file is discarded. -/
def analyze_log_file (file : String) (lines : List (List Char))
    (st0 : AnalyzerState) : AnalyzerState :=
  (lines.foldl (stepLine file) (st0, none)).1

/- ---------------------------------------------------------------
   Stop-point detection of the advanced analyzer
   (detect_stop_points, deque variant: window of the points at most
   W minutes old, at least five points, movement threshold 0.01).
   --------------------------------------------------------------- -/

structure StopPoint where
  timestamp : ℤ
  position : PositionRecord
  duration_minutes : ℤ
  avg_movement : ℚ
deriving DecidableEq, Repr

/-- The pop condition of the deque maintenance: the point is more than
W minutes older than the current timestamp. -/
def outOfWindow (t W : ℤ) (q : PositionRecord) : Bool :=
  decide (W * 60 < t - q.timestamp)

/-- Membership in the current window (the complement of the pop
condition). -/
def inWindow (t W : ℤ) (q : PositionRecord) : Bool :=
  decide (t - q.timestamp ≤ W * 60)

/-- The absolute successive deltas of a coordinate across a window. -/
def succDeltas (f : PositionRecord → ℚ) : List PositionRecord → List ℚ
  | a :: b :: rest => |f b - f a| :: succDeltas f (b :: rest)
  | _ => []

def avgQ (l : List ℚ) : ℚ := l.sum / l.length

def xOf (p : PositionRecord) : ℚ := p.x

def yOf (p : PositionRecord) : ℚ := p.y

/-- The emission test of one iteration of detect_stop_points: with at
least five points in the window, emit a stop point at the current
timestamp when the mean absolute successive delta is below 0.01 in x
and in y. -/
def stopEmit (W : ℤ) (win : List PositionRecord) (p : PositionRecord) : List StopPoint :=
  if 5 ≤ win.length then
    let ax := avgQ (succDeltas xOf win)
    let ay := avgQ (succDeltas yOf win)
    if ax < 1 / 100 ∧ ay < 1 / 100 then
      [⟨p.timestamp, p, W, (ax + ay) / 2⟩]
    else []
  else []

/-- The scan of detect_stop_points over the time-sorted position list:
append the current point to the window, pop the front while it is out
of the time window, then test for emission. -/
def stopLoop (W : ℤ) : List PositionRecord → List PositionRecord → List StopPoint
  | _, [] => []
  | win, p :: rest =>
    let win1 := (win ++ [p]).dropWhile (outOfWindow p.timestamp W)
    stopEmit W win1 p ++ stopLoop W win1 rest

/-- detect_stop_points of the advanced analyzer, applied to the position
list already sorted by timestamp ascending (the source sorts
position_data by timestamp before this scan). -/
def detect_stop_points (sorted_positions : List PositionRecord) (W : ℤ) : List StopPoint :=
  stopLoop W [] sorted_positions

/-- Spec-side description of the scan: at every point, the window is the
set of already-seen points at most W minutes older than the current
point, recomputed from the whole prefix by a filter. -/
def stopSpec (W : ℤ) : List PositionRecord → List PositionRecord → List StopPoint
  | _, [] => []
  | pre, p :: rest =>
    stopEmit W ((pre ++ [p]).filter (inWindow p.timestamp W)) p
      ++ stopSpec W (pre ++ [p]) rest

/-- The position list is sorted by timestamp ascending. -/
abbrev tsSorted (l : List PositionRecord) : Prop :=
  l.Pairwise (fun a b => a.timestamp ≤ b.timestamp)

/- ---------------------------------------------------------------
   Complaint correlation (complaint analyzer).  Only the fields the
   time-window join writes are modelled; the movement analysis, root
   cause list and recommendations of the source are computed downstream
   of the three nearby collections and are not referenced here.
   --------------------------------------------------------------- -/

structure CStopEvent where
  timestamp : ℚ
  type : String
deriving DecidableEq, Repr

structure CAnomaly where
  timestamp : ℚ
  severity : String
deriving DecidableEq, Repr

structure CPosition where
  timestamp : ℚ
  x : ℚ
  y : ℚ
deriving DecidableEq, Repr

structure ComplaintAnalysis where
  complaint_time : ℚ
  time_window_minutes : ℤ
  stop_events_nearby : List CStopEvent
  anomalies_nearby : List CAnomaly
  position_data_nearby : List CPosition
deriving DecidableEq, Repr

/-- analyze_complaint_scenario: each of the three collections is scanned
and an element is kept exactly when the absolute difference between its
timestamp and the complaint time is at most the window in seconds. -/
def analyze_complaint_scenario (stop_events : List CStopEvent)
    (anomaly_events : List CAnomaly) (position_data : List CPosition)
    (complaint_time : ℚ) (time_window_minutes : ℤ) : ComplaintAnalysis :=
  let tw : ℚ := (time_window_minutes : ℚ) * 60
  ⟨complaint_time, time_window_minutes,
   stop_events.filter (fun e => decide (|e.timestamp - complaint_time| ≤ tw)),
   anomaly_events.filter (fun e => decide (|e.timestamp - complaint_time| ≤ tw)),
   position_data.filter (fun e => decide (|e.timestamp - complaint_time| ≤ tw))⟩

/- ---------------------------------------------------------------
   Historical trace analyzer: timestamp parsing (with the extra
   13-digit epoch-milliseconds pattern), task segment extraction with
   the minimum-duration filter, and the sequence/trend analyses.
   Timestamps are rationals here because the epoch branch divides by
   1000.0; the local timezone offset of fromtimestamp is the abstract
   parameter tz (in seconds).
   --------------------------------------------------------------- -/

/-- One conversion attempt of the historical parser's pattern loop. -/
def tryConvertH (tz : ℚ) (g : List Char) : Option ℚ :=
  if g.count ':' = 2 then (strptimeSecs g).map (fun z => (z : ℚ))
  else if g.count ':' = 3 then (strptimeSecs (g.take 19)).map (fun z => (z : ℚ))
  else if g.length = 13 then some (tz + (digitsToNat g : ℚ) / 1000)
  else none

def parseLoopH (tz : ℚ) : List (List Char → Option (List Char)) → List Char → Option ℚ
  | [], _ => none
  | f :: fs, line =>
    match f line with
    | none => parseLoopH tz fs line
    | some g =>
      match tryConvertH tz g with
      | some t => some t
      | none => parseLoopH tz fs line

/-- The historical analyzer's timestamp pattern priority list. -/
def h_timestamp_patterns : List (List Char → Option (List Char)) :=
  [searchP1, searchP2, searchP3, searchP13]

/-- parse_timestamp of the historical trace analyzer. -/
def parse_timestamp_hist (tz : ℚ) (line : List Char) : Option ℚ :=
  parseLoopH tz h_timestamp_patterns line

/-- Task-start pattern bank of the historical analyzer. -/
def h_task_start : List (List Tok) :=
  [litCI "wait_for_delivery_task entry", litCI "任务开始",
   litCI "clean" ++ [Tok.dotstar] ++ litCI "start",
   litCI "mission" ++ [Tok.dotstar] ++ litCI "start",
   litCI "navigation" ++ [Tok.dotstar] ++ litCI "task",
   litCI "开始清洁", litCI "执行任务"]

/-- Task-end pattern bank of the historical analyzer. -/
def h_task_end : List (List Tok) :=
  [litCI "finish task", litCI "任务结束",
   litCI "clean" ++ [Tok.dotstar] ++ litCI "finish",
   litCI "mission" ++ [Tok.dotstar] ++ litCI "complete",
   litCI "navigation no task",
   litCI "清洁完成", litCI "任务完成"]

/-- Task-success pattern bank of the historical analyzer. -/
def h_task_success : List (List Tok) :=
  [litCI "task" ++ [Tok.dotstar] ++ litCI "success",
   litCI "任务" ++ [Tok.dotstar] ++ litCI "成功",
   litCI "完成" ++ [Tok.dotstar] ++ litCI "正常",
   litCI "success" ++ [Tok.dotstar] ++ litCI "complete"]

/-- Task-failure pattern bank of the historical analyzer. -/
def h_task_failure : List (List Tok) :=
  [litCI "task" ++ [Tok.dotstar] ++ litCI "fail",
   litCI "任务" ++ [Tok.dotstar] ++ litCI "失败",
   litCI "异常" ++ [Tok.dotstar] ++ litCI "终止",
   litCI "error" ++ [Tok.dotstar] ++ litCI "task",
   litCI "failed" ++ [Tok.dotstar] ++ litCI "complete"]

/-- Event type table of classify_event_type, in iteration order. -/
def event_types : List (String × List (List Tok)) :=
  [("navigation", [litCI "navigation", litCI "导航", litCI "路径", litCI "goal"]),
   ("sensor", [litCI "sensor", litCI "传感器", litCI "激光雷达", litCI "camera"]),
   ("system", [litCI "cpu", litCI "memory", litCI "battery", litCI "temperature"]),
   ("error", [litCI "error", litCI "fail", litCI "异常", litCI "错误"]),
   ("warning", [litCI "warn", litCI "警告", litCI "注意"]),
   ("status", [litCI "status", litCI "状态", litCI "online", litCI "offline"])]

/-- classify_event_type of the historical analyzer (first matching type
in table order, else general). -/
def classify_event_type (line : List Char) : String :=
  (findPhase event_types line).getD "general"

/-- The minimum task duration parameter of trace_params, in minutes. -/
def min_task_duration_minutes : ℚ := 5

structure HEvent where
  timestamp : ℚ
  line : List Char
  type : String
deriving DecidableEq, Repr

structure HOpenTask where
  start_time : ℚ
  file : String
  events : List HEvent
  status : String
deriving DecidableEq, Repr

/-- An emitted historical task segment.  On every emitted segment the
source sets end_time, duration and status, so the defensive dictionary
defaults of the downstream analyses are never exercised and the fields
are total here. -/
structure HTaskSegment where
  start_time : ℚ
  file : String
  events : List HEvent
  status : String
  end_time : ℚ
  duration : ℚ
deriving DecidableEq, Repr

/-- One line of extract_task_segments.  The start block runs first (a
start match opens a task only when none is open), then the end block
(an end match with an open task detects success or failure on the same
line, failure taking precedence because its loop runs second, and
appends the segment only when the duration reaches the minimum), then
the event append to the task still open. -/
def hStep (tz : ℚ) (file : String) (acc : List HTaskSegment × Option HOpenTask)
    (line : List Char) : List HTaskSegment × Option HOpenTask :=
  match parse_timestamp_hist tz line with
  | none => acc
  | some ts =>
    let cur1 : Option HOpenTask :=
      if h_task_start.any (fun p => searchTok p line) then
        match acc.2 with
        | none => some ⟨ts, file, [], "running"⟩
        | some c => some c
      else acc.2
    let next : List HTaskSegment × Option HOpenTask :=
      if h_task_end.any (fun p => searchTok p line) then
        match cur1 with
        | some c =>
          let status1 := if h_task_success.any (fun p => searchTok p line) then "success" else c.status
          let status2 := if h_task_failure.any (fun p => searchTok p line) then "failure" else status1
          let dur := ts - c.start_time
          (if min_task_duration_minutes * 60 ≤ dur then
            acc.1 ++ [⟨c.start_time, c.file, c.events, status2, ts, dur⟩]
           else acc.1, none)
        | none => (acc.1, cur1)
      else (acc.1, cur1)
    match next.2 with
    | some c =>
      (next.1, some ⟨c.start_time, c.file, c.events ++ [⟨ts, line, classify_event_type line⟩], c.status⟩)
    | none => (next.1, none)

/-- extract_task_segments of the historical trace analyzer over the
lines of one file; the task still open at end of file is discarded. -/
def extract_task_segments (tz : ℚ) (file : String) (lines : List (List Char)) :
    List HTaskSegment :=
  (lines.foldl (hStep tz file) ([], none)).1

/- ---------------------------------------------------------------
   Historical sequence, cross-task and trend analyses.
   --------------------------------------------------------------- -/

structure SequenceAnalysis where
  total_duration_hours : ℚ
  success_rate : ℚ
  avg_task_duration_minutes : ℚ
deriving DecidableEq, Repr

/-- analyze_task_sequence (the per-task entries and event statistics of
the source are not modelled; the aggregate fields are).  The success
rate is the success count over the sequence length, times 100. -/
def analyze_task_sequence (task_sequence : List HTaskSegment) : SequenceAnalysis :=
  let success_count := (task_sequence.filter (fun t => t.status == "success")).length
  let total_duration := (task_sequence.map HTaskSegment.duration).sum
  let tdh := (task_sequence.map (fun t => t.duration / 3600)).sum
  if task_sequence.length = 0 then ⟨tdh, 0, 0⟩
  else ⟨tdh, (success_count : ℚ) / task_sequence.length * 100,
        total_duration / task_sequence.length / 60⟩

/-- All consecutive pairs of the list satisfy the relation. -/
def chainRel (r : ℚ → ℚ → Bool) : List ℚ → Bool
  | a :: b :: rest => r a b && chainRel r (b :: rest)
  | _ => true

structure StatusRec where
  timestamp : ℚ
  cpu_usage : Option ℚ
  memory_usage : Option ℚ
deriving DecidableEq, Repr

/-- The dictionary lookup with default zero on a status record. -/
def getRes (f : StatusRec → Option ℚ) (s : StatusRec) : ℚ := (f s).getD 0

/-- analyze_resource_trend: per task, the mean of the resource values of
the status records inside the task interval (tasks without records are
skipped); with at least three values, strict increase by ten percent at
every step is increasing, strict decrease by ten percent decreasing,
else stable.  The resource key string of the source is modelled by the
field selector f. -/
def analyze_resource_trend (ssd : List StatusRec) (f : StatusRec → Option ℚ)
    (ts : List HTaskSegment) : String :=
  let resource_values := ts.filterMap (fun t =>
    let tsd := ssd.filter (fun s =>
      decide (t.start_time ≤ s.timestamp) && decide (s.timestamp ≤ t.end_time))
    if tsd.length = 0 then none else some ((tsd.map (getRes f)).sum / tsd.length))
  if 3 ≤ resource_values.length then
    if chainRel (fun a b => decide (a * (11 / 10) < b)) resource_values then "increasing"
    else if chainRel (fun a b => decide (b < a * (9 / 10))) resource_values then "decreasing"
    else "stable"
  else "stable"

structure CrossTaskAnalysis where
  performance_degradation : Bool
  error_escalation : Bool
  resource_trend : String
deriving DecidableEq, Repr

/-- The per-task error event count (events classified as error type). -/
def errCount (t : HTaskSegment) : ℕ :=
  (t.events.filter (fun e => e.type == "error")).length

/-- analyze_cross_task_patterns: degradation when, over at least three
tasks, every duration exceeds 1.2 times the previous; escalation when
error counts strictly increase; resource trend from the cpu and memory
trends when status data exists. -/
def analyze_cross_task_patterns (ssd : List StatusRec) (ts : List HTaskSegment) :
    CrossTaskAnalysis :=
  if ts.length < 2 then ⟨false, false, "stable"⟩
  else
    let durations := ts.map HTaskSegment.duration
    let pd := if 3 ≤ durations.length then
        chainRel (fun a b => decide (a * (6 / 5) < b)) durations
      else false
    let ecs := ts.map (fun t => (errCount t : ℚ))
    let ee := if 2 ≤ ecs.length then chainRel (fun a b => decide (a < b)) ecs else false
    let rt := if !ssd.isEmpty then
        let ct := analyze_resource_trend ssd StatusRec.cpu_usage ts
        let mt := analyze_resource_trend ssd StatusRec.memory_usage ts
        if ct == "increasing" || mt == "increasing" then "increasing"
        else if ct == "decreasing" || mt == "decreasing" then "decreasing"
        else "stable"
      else "stable"
    ⟨pd, ee, rt⟩

/-- calculate_trend: the ordinary-least-squares regression slope of the
values against the index positions, zero for fewer than two values. -/
def calculate_trend (values : List ℚ) : ℚ :=
  if values.length < 2 then 0
  else
    let n : ℚ := values.length
    let xs := (List.range values.length).map (fun i => (i : ℚ))
    let sum_x := xs.sum
    let sum_y := values.sum
    let sum_xy := ((xs.zip values).map (fun p => p.1 * p.2)).sum
    let sum_x2 := (xs.map (fun x => x * x)).sum
    (n * sum_xy - sum_x * sum_y) / (n * sum_x2 - sum_x * sum_x)

structure TrendAnalysis where
  duration_trend : String
  error_trend : String
  performance_trend : String
  stability_trend : String
deriving DecidableEq, Repr

/-- analyze_trends: the duration and error-count sequences are
classified by the sign of the regression slope against the thresholds
plus and minus 0.1; fewer than two tasks leave every trend stable. -/
def analyze_trends (ts : List HTaskSegment) : TrendAnalysis :=
  if ts.length < 2 then ⟨"stable", "stable", "stable", "stable"⟩
  else
    let durations := ts.map HTaskSegment.duration
    let dt := if calculate_trend durations > 1 / 10 then "increasing"
      else if calculate_trend durations < -(1 / 10) then "decreasing"
      else "stable"
    let ecs := ts.map (fun t => (errCount t : ℚ))
    let et := if calculate_trend ecs > 1 / 10 then "increasing"
      else if calculate_trend ecs < -(1 / 10) then "decreasing"
      else "stable"
    ⟨dt, et, "stable", "stable"⟩

/- ---------------------------------------------------------------
   Spec-side definitions for the task segmenter invariant: the pairing
   count over the sequence of phase tags of the lines.
   --------------------------------------------------------------- -/

/-- The phase tag a line contributes to the segmenter: its detected task
phase when it has a parseable timestamp, nothing otherwise (the walker
skips lines without timestamps before any classification). -/
def phaseTag (line : List Char) : Option String :=
  if (parse_timestamp line).isSome then detect_task_phase line else none

/-- Spec-side state machine on phase tags: starting from an open flag,
a start tag opens when closed, an end tag closes when open and counts
one complete pair, everything else changes nothing. -/
def tagStep (opened : Bool) (t : Option String) : Bool × ℕ :=
  match t with
  | some s =>
    if s == "task_start" && !opened then (true, 0)
    else if s == "task_end" && opened then (false, 1)
    else (opened, 0)
  | none => (opened, 0)

def pairCountFrom (opened : Bool) : List (Option String) → ℕ
  | [] => 0
  | t :: ts => (tagStep opened t).2 + pairCountFrom (tagStep opened t).1 ts

/-- Spec-side definition: the number of complete, non-nested
start-before-end pairs of a tag sequence. -/
def completePairCount (tags : List (Option String)) : ℕ :=
  pairCountFrom false tags

/-- Invariant of an event list of a task opened at the given time: it
starts with the event of the opening line (a line whose phase is
task_start, stamped with the task's start time) and never contains a
line whose phase is task_end. -/
def eventsOK (evs : List Event) (startT : ℤ) : Prop :=
  (∃ e rest, evs = e :: rest ∧ e.timestamp = startT ∧
    detect_task_phase e.line = some "task_start") ∧
  ∀ e ∈ evs, detect_task_phase e.line ≠ some "task_end"

def curOK : Option OpenTask → Prop
  | none => True
  | some c => eventsOK c.events c.start_time

/- ---------------------------------------------------------------
   Concrete inputs used by the counterexamples and witnesses.
   --------------------------------------------------------------- -/

/-- A line whose first matching timestamp pattern captures an invalid
date while a weaker pattern later in the priority list holds a valid
colon-milliseconds timestamp. -/
def cxLine : List Char := "2025-99-99 10:00:00 x 2025-01-01 10:00:00:207".data

def l1 : List Char := "2025-01-01 10:00:00 wait_for_delivery_task entry".data

def l2 : List Char := "2025-01-01 10:05:00 Slam pose: [1.0,2.0,0.0]".data

def l3 : List Char := "2025-01-01 10:10:00 finish task".data

def mkSlam (t : ℤ) (x y : ℚ) : PositionRecord := ⟨t, "slam", x, y, some 0, "slam_pose"⟩

/-- Four identical positions spanning exactly the ten-minute window. -/
def idFour : List PositionRecord := [mkSlam 0 1 2, mkSlam 200 1 2, mkSlam 400 1 2, mkSlam 600 1 2]

/-- Five identical positions inside the ten-minute window. -/
def idFive : List PositionRecord :=
  [mkSlam 0 1 2, mkSlam 100 1 2, mkSlam 200 1 2, mkSlam 300 1 2, mkSlam 400 1 2]

/-- Five positions whose x advances by one metre each step. -/
def movFive : List PositionRecord :=
  [mkSlam 0 0 2, mkSlam 100 1 2, mkSlam 200 2 2, mkSlam 300 3 2, mkSlam 400 4 2]

/-- The segment produced by walking the two-line log of a ten-minute
task (start marker, end marker). -/
def twoLineSeg : TaskSegment :=
  ⟨civilSecs 2025 1 1 10 0 0, "task", "robot2.log",
   [⟨civilSecs 2025 1 1 10 0 0, l1, none, []⟩],
   civilSecs 2025 1 1 10 10 0, 600⟩

/-- The historical segment produced by extracting the same two-line log
(the line of the start marker classifies as a general event). -/
def histSeg : HTaskSegment :=
  ⟨((civilSecs 2025 1 1 10 0 0 : ℤ) : ℚ), "hist.log",
   [⟨((civilSecs 2025 1 1 10 0 0 : ℤ) : ℚ), l1, "general"⟩], "running",
   ((civilSecs 2025 1 1 10 10 0 : ℤ) : ℚ), 600⟩

/-- A single successful ten-minute task. -/
def oneSuccess : HTaskSegment := ⟨0, "robot.log", [], "success", 600, 600⟩

/-- Four tasks with the strictly increasing durations of the trend
scenario. -/
def fourTasks : List HTaskSegment :=
  [⟨0, "f", [], "running", 60, 60⟩, ⟨100, "f", [], "running", 180, 80⟩,
   ⟨200, "f", [], "running", 310, 110⟩, ⟨400, "f", [], "running", 550, 150⟩]

/-- A line that is both an anomaly (motor offline) and an ERROR line. -/
def errLine : List Char := "2025-01-01 10:00:00 motor offline ERROR".data

/-- A stop event at time zero. -/
def stopAtZero : CStopEvent := ⟨0, "movement_analysis"⟩

/- ===============================================================
   Theorems.
   =============================================================== -/

/-- A fold preserves any invariant its step preserves. -/
lemma foldl_pres {σ α : Type} (P : σ → Prop) (f : σ → α → σ)
    (hstep : ∀ s a, P s → P (f s a)) (ls : List α) :
    ∀ s : σ, P s → P (ls.foldl f s) := by
  induction ls with
  | nil => intro s hs; simpa using hs
  | cons a ls ih => intro s hs; rw [List.foldl_cons]; exact ih _ (hstep s a hs)

/-- The pattern loop yields nothing exactly when every pattern of the
list either does not match or captures an unconvertible value. -/
lemma parseLoop_none_iff (fs : List (List Char → Option (List Char))) (line : List Char) :
    parseLoop fs line = none ↔ ∀ f ∈ fs, ∀ g, f line = some g → tryConvert g = none := by
  induction fs with
  | nil => simp [parseLoop]
  | cons f fs ih =>
    constructor
    · intro h f2 hf2 g hg
      rcases List.mem_cons.1 hf2 with rfl | hmem
      · cases hf : f2 line with
        | none => simp [hf] at hg
        | some g2 =>
          rw [hf] at hg
          cases hg
          cases hc : tryConvert g with
          | none => rfl
          | some t => simp [parseLoop, hf, hc] at h
      · cases hf : f line with
        | none =>
          simp only [parseLoop, hf] at h
          exact (ih.1 h) f2 hmem g hg
        | some g2 =>
          cases hc : tryConvert g2 with
          | none =>
            simp only [parseLoop, hf, hc] at h
            exact (ih.1 h) f2 hmem g hg
          | some t => simp [parseLoop, hf, hc] at h
    · intro h
      cases hf : f line with
      | none =>
        simp only [parseLoop, hf]
        exact ih.2 (fun f2 hmem g hg => h f2 (List.mem_cons_of_mem f hmem) g hg)
      | some g =>
        have hc : tryConvert g = none := h f (List.mem_cons_self f fs) g hf
        simp only [parseLoop, hf, hc]
        exact ih.2 (fun f2 hmem g2 hg => h f2 (List.mem_cons_of_mem f hmem) g2 hg)

/-- C1 (amended): the timestamp parser tries its patterns in priority
order, and a matched pattern whose captured value fails conversion does
not abort the line: the parser falls back to the remaining patterns, and
returns nothing exactly when every pattern fails to match or to
convert. -/
theorem timestamp_parser_fallback (line : List Char) :
    (∀ g, searchP1 line = some g → tryConvert g = none →
      parse_timestamp line = parseLoop [searchP2, searchP3] line) ∧
    (parse_timestamp line = none ↔
      ∀ f ∈ timestamp_patterns, ∀ g, f line = some g → tryConvert g = none) := by
  constructor
  · intro g h1 h2
    simp only [parse_timestamp, timestamp_patterns, parseLoop, h1, h2]
  · exact parseLoop_none_iff timestamp_patterns line

/-- C1 counterexample: on this line the first pattern matches first (an
invalid date), its conversion fails, and yet the parser does not return
"not found": it falls back and parses the colon-milliseconds timestamp
later in the line. -/
theorem timestamp_parser_no_fallback_false :
    searchP1 cxLine = some ("2025-99-99 10:00:00".data) ∧
    tryConvert ("2025-99-99 10:00:00".data) = none ∧
    parse_timestamp cxLine = some (civilSecs 2025 1 1 10 0 0) := by
  refine ⟨by decide, by decide, by decide⟩

/-- C1 witness: the fallback theorem applied to the counterexample
line. -/
theorem timestamp_parser_fallback_witness :
    parse_timestamp cxLine = parseLoop [searchP2, searchP3] cxLine :=
  (timestamp_parser_fallback cxLine).1 ("2025-99-99 10:00:00".data)
    (by decide) (by decide)

/-- Every anomaly the detector appends carries the severity assessed
for its type on the line. -/
lemma mem_anomaliesFor (tbl : List (String × List (List Tok))) (line : List Char) (ts : ℤ) :
    ∀ a ∈ anomaliesFor tbl line ts,
      ∃ aty, a.severity = assess_anomaly_severity aty line := by
  induction tbl with
  | nil => intro a ha; cases ha
  | cons hd tl ih =>
    intro a ha
    rcases hd with ⟨aty, pats⟩
    rcases List.mem_append.1 ha with hmem | hmem
    · rcases List.mem_filterMap.1 hmem with ⟨p, _, hp⟩
      by_cases hsearch : searchTok p line
      · simp only [hsearch, if_pos] at hp
        cases hp
        exact ⟨aty, rfl⟩
      · simp [hsearch] at hp
    · exact ih a hmem

/-- C6: severity assessment is the documented override chain — a line
containing ERROR always assesses high, otherwise WARN assesses medium,
otherwise the static type table decides; consequently every AnomalyEvent
detected on a line containing ERROR has severity high. -/
theorem severity_error_override (aty : String) (line : List Char) (ts : ℤ) :
    (strIn ("ERROR".data) line = true → assess_anomaly_severity aty line = "high") ∧
    (strIn ("ERROR".data) line = false → strIn ("WARN".data) line = true →
      assess_anomaly_severity aty line = "medium") ∧
    (strIn ("ERROR".data) line = false → strIn ("WARN".data) line = false →
      assess_anomaly_severity aty line = severity_map aty) ∧
    (∀ a ∈ detect_anomalies line ts, strIn ("ERROR".data) line = true →
      a.severity = "high") := by
  refine ⟨fun h => by simp [assess_anomaly_severity, h],
          fun h1 h2 => by simp [assess_anomaly_severity, h1, h2],
          fun h1 h2 => by simp [assess_anomaly_severity, h1, h2], ?_⟩
  intro a ha herr
  obtain ⟨aty2, hsev⟩ := mem_anomaliesFor anomaly_patterns line ts a ha
  rw [hsev]
  simp [assess_anomaly_severity, herr]

/-- C6 witness: the override theorem applied to an ERROR line that also
matches the motor-offline anomaly pattern (base severity medium). -/
theorem severity_error_override_witness :
    assess_anomaly_severity "sensor_offline" errLine = "high" ∧
    ∀ a ∈ detect_anomalies errLine 0, a.severity = "high" := by
  refine ⟨(severity_error_override "sensor_offline" errLine 0).1 (by decide), ?_⟩
  intro a ha
  exact (severity_error_override "x" errLine 0).2.2.2 a ha (by decide)

/-- C7: walking the three-line synthetic log produces exactly one task
segment of duration 600 seconds, containing exactly one event with an
embedded position record and no event anomalies, and produces zero
anomaly events overall. -/
theorem three_line_end_to_end :
    (analyze_log_file "robot.log" [l1, l2, l3] emptyState).task_segments.map
        TaskSegment.duration = [600] ∧
    (analyze_log_file "robot.log" [l1, l2, l3] emptyState).task_segments.map
        (fun s => (s.events.filter (fun e => e.position.isSome)).length) = [1] ∧
    (analyze_log_file "robot.log" [l1, l2, l3] emptyState).task_segments.map
        (fun s => s.events.all (fun e => e.anomalies.isEmpty)) = [true] ∧
    (analyze_log_file "robot.log" [l1, l2, l3] emptyState).anomalies = [] := by
  refine ⟨by decide, by decide, by decide, by decide⟩

/-- C8: the complaint correlator keeps an element of each collection
exactly when the absolute difference between its timestamp and the
complaint time is at most the window in seconds (an inclusive boundary);
in particular a stop event whose timestamp equals the complaint time is
kept for every nonnegative window. -/
theorem complaint_window_inclusive (ses : List CStopEvent) (aes : List CAnomaly)
    (pds : List CPosition) (ct : ℚ) (w : ℤ) :
    (∀ e, e ∈ (analyze_complaint_scenario ses aes pds ct w).stop_events_nearby ↔
      e ∈ ses ∧ |e.timestamp - ct| ≤ (w : ℚ) * 60) ∧
    (∀ e, e ∈ (analyze_complaint_scenario ses aes pds ct w).anomalies_nearby ↔
      e ∈ aes ∧ |e.timestamp - ct| ≤ (w : ℚ) * 60) ∧
    (∀ e, e ∈ (analyze_complaint_scenario ses aes pds ct w).position_data_nearby ↔
      e ∈ pds ∧ |e.timestamp - ct| ≤ (w : ℚ) * 60) ∧
    (∀ e ∈ ses, e.timestamp = ct → 0 ≤ w →
      e ∈ (analyze_complaint_scenario ses aes pds ct w).stop_events_nearby) := by
  refine ⟨?_, ?_, ?_, ?_⟩
  · intro e; simp [analyze_complaint_scenario, List.mem_filter]
  · intro e; simp [analyze_complaint_scenario, List.mem_filter]
  · intro e; simp [analyze_complaint_scenario, List.mem_filter]
  · intro e hmem ht hw
    simp only [analyze_complaint_scenario, List.mem_filter]
    refine ⟨hmem, ?_⟩
    rw [ht]
    simp only [sub_self, abs_zero, decide_eq_true_eq]
    have hw2 : (0 : ℚ) ≤ (w : ℚ) := by exact_mod_cast hw
    positivity

/-- C8 witness: a stop event exactly at the complaint time is kept with
the default thirty-minute window. -/
theorem complaint_window_inclusive_witness :
    stopAtZero ∈ (analyze_complaint_scenario [stopAtZero] [] [] 0 30).stop_events_nearby :=
  (complaint_window_inclusive [stopAtZero] [] [] 0 30).2.2.2 stopAtZero
    (by simp) rfl (by decide)

/-- C5 (amended): the reported success rate of a nonempty task sequence
is the fraction of successful tasks times one hundred — a percentage,
not the bare fraction. -/
theorem success_rate_is_percentage (ts : List HTaskSegment) (h : ts ≠ []) :
    (analyze_task_sequence ts).success_rate =
      ((ts.filter (fun t => t.status == "success")).length : ℚ) / ts.length * 100 := by
  have hlen : ts.length ≠ 0 := by simpa [List.length_eq_zero] using h
  simp [analyze_task_sequence, hlen]

/-- C5 counterexample: for a single successful task the reported success
rate is one hundred, while the fraction of successful tasks is one. -/
theorem success_rate_not_fraction :
    (analyze_task_sequence [oneSuccess]).success_rate = 100 ∧
    (((([oneSuccess] : List HTaskSegment).filter
        (fun t => t.status == "success")).length : ℚ) /
      ([oneSuccess] : List HTaskSegment).length = 1) ∧
    (100 : ℚ) ≠ 1 := by
  refine ⟨?_, by norm_num [oneSuccess], by norm_num⟩
  rw [success_rate_is_percentage [oneSuccess] (by simp)]
  norm_num [oneSuccess]

/-- C5 witness: the percentage theorem applied to the one-task
sequence. -/
theorem success_rate_is_percentage_witness :
    (analyze_task_sequence [oneSuccess]).success_rate =
      ((([oneSuccess] : List HTaskSegment).filter
          (fun t => t.status == "success")).length : ℚ) /
        ([oneSuccess] : List HTaskSegment).length * 100 :=
  success_rate_is_percentage [oneSuccess] (by simp)

/-- The regression slope of fewer than two values is zero. -/
lemma calculate_trend_short (values : List ℚ) (h : values.length < 2) :
    calculate_trend values = 0 := by
  simp [calculate_trend, h]

/-- The regression slope of the documented duration scenario. -/
lemma calculate_trend_sixty : calculate_trend [60, 80, 110, 150] = 30 := by
  have hr : List.range 4 = [0, 1, 2, 3] := by decide
  simp only [calculate_trend, List.length_cons, List.length_nil]
  norm_num [hr, List.zip]

/-- C4: on a four-task sequence with durations 60, 80, 110, 150 the
cross-task analysis reports performance degradation (every duration
exceeds 1.2 times the previous) and the trend analysis classifies the
duration trend increasing; in general the duration trend is increasing
exactly when the regression slope of the durations against the index
positions exceeds 0.1, decreasing exactly when it is below minus 0.1,
and stable otherwise. -/
theorem duration_trend_classification (ssd : List StatusRec) (ts : List HTaskSegment) :
    (ts.map HTaskSegment.duration = [60, 80, 110, 150] →
      (analyze_cross_task_patterns ssd ts).performance_degradation = true ∧
      (analyze_trends ts).duration_trend = "increasing") ∧
    ((analyze_trends ts).duration_trend = "increasing" ↔
      1 / 10 < calculate_trend (ts.map HTaskSegment.duration)) ∧
    ((analyze_trends ts).duration_trend = "decreasing" ↔
      calculate_trend (ts.map HTaskSegment.duration) < -(1 / 10)) ∧
    ((analyze_trends ts).duration_trend = "stable" ↔
      (¬ 1 / 10 < calculate_trend (ts.map HTaskSegment.duration) ∧
       ¬ calculate_trend (ts.map HTaskSegment.duration) < -(1 / 10))) := by
  have hdt : (analyze_trends ts).duration_trend =
      if ts.length < 2 then "stable"
      else if 1 / 10 < calculate_trend (ts.map HTaskSegment.duration) then "increasing"
      else if calculate_trend (ts.map HTaskSegment.duration) < -(1 / 10) then "decreasing"
      else "stable" := by
    by_cases hlen : ts.length < 2
    · simp only [analyze_trends, if_pos hlen]
    · simp only [analyze_trends, if_neg hlen, gt_iff_lt]
  have hmain : ((analyze_trends ts).duration_trend = "increasing" ↔
      1 / 10 < calculate_trend (ts.map HTaskSegment.duration)) ∧
      ((analyze_trends ts).duration_trend = "decreasing" ↔
        calculate_trend (ts.map HTaskSegment.duration) < -(1 / 10)) ∧
      ((analyze_trends ts).duration_trend = "stable" ↔
        (¬ 1 / 10 < calculate_trend (ts.map HTaskSegment.duration) ∧
         ¬ calculate_trend (ts.map HTaskSegment.duration) < -(1 / 10))) := by
    rw [hdt]
    by_cases hlen : ts.length < 2
    · have h0 : calculate_trend (ts.map HTaskSegment.duration) = 0 :=
        calculate_trend_short _ (by simpa using hlen)
      rw [if_pos hlen, h0]
      exact ⟨iff_of_false (by decide) (by norm_num),
             iff_of_false (by decide) (by norm_num),
             iff_of_true rfl ⟨by norm_num, by norm_num⟩⟩
    · rw [if_neg hlen]
      by_cases hinc : 1 / 10 < calculate_trend (ts.map HTaskSegment.duration)
      · rw [if_pos hinc]
        have hndec : ¬ calculate_trend (ts.map HTaskSegment.duration) < -(1 / 10) := by
          intro hc
          have := hc.trans (by norm_num : -(1 / 10 : ℚ) < 1 / 10)
          exact absurd (this.trans hinc) (lt_irrefl _)
        exact ⟨iff_of_true rfl hinc, iff_of_false (by decide) hndec,
               iff_of_false (by decide) (fun h => h.1 hinc)⟩
      · rw [if_neg hinc]
        by_cases hdec : calculate_trend (ts.map HTaskSegment.duration) < -(1 / 10)
        · rw [if_pos hdec]
          exact ⟨iff_of_false (by decide) hinc, iff_of_true rfl hdec,
                 iff_of_false (by decide) (fun h => h.2 hdec)⟩
        · rw [if_neg hdec]
          exact ⟨iff_of_false (by decide) hinc, iff_of_false (by decide) hdec,
                 iff_of_true rfl ⟨hinc, hdec⟩⟩
  refine ⟨?_, hmain⟩
  intro hdur
  have hlen4 : ts.length = 4 := by
    have := congrArg List.length hdur
    simpa using this
  constructor
  · have hchain : chainRel (fun a b => decide (a * (6 / 5) < b)) [60, 80, 110, 150] = true := by
      simp [chainRel]
      norm_num
    simp [analyze_cross_task_patterns, hlen4, hdur, hchain]
  · have h30 : calculate_trend (ts.map HTaskSegment.duration) = 30 := by
      rw [hdur]; exact calculate_trend_sixty
    have : 1 / 10 < calculate_trend (ts.map HTaskSegment.duration) := by
      rw [h30]; norm_num
    exact hmain.1.2 this

/-- C4 witness: the classification theorem applied to four concrete
tasks with the documented durations. -/
theorem duration_trend_classification_witness :
    (analyze_cross_task_patterns [] fourTasks).performance_degradation = true ∧
    (analyze_trends fourTasks).duration_trend = "increasing" :=
  (duration_trend_classification [] fourTasks).1 rfl

/-- One walker step changes the segment count and the open flag exactly
as the spec-side tag machine prescribes. -/
lemma stepLine_tagged (file : String) (st : AnalyzerState) (cur : Option OpenTask)
    (line : List Char) :
    ((stepLine file (st, cur) line).1).task_segments.length
      = st.task_segments.length + (tagStep cur.isSome (phaseTag line)).2 ∧
    ((stepLine file (st, cur) line).2).isSome = (tagStep cur.isSome (phaseTag line)).1 := by
  cases hp : parse_timestamp line with
  | none =>
    have hpt : phaseTag line = none := by simp [phaseTag, hp]
    simp [stepLine, hp, hpt, tagStep]
  | some ts =>
    have hpt : phaseTag line = detect_task_phase line := by simp [phaseTag, hp]
    rw [hpt]
    cases hph : detect_task_phase line with
    | none =>
      cases cur <;> simp [stepLine, hp, hph, taskTransition, tagStep]
    | some p =>
      cases cur with
      | none =>
        by_cases hs : p == "task_start" <;>
          simp [stepLine, hp, hph, taskTransition, tagStep, hs]
      | some c =>
        by_cases he : p == "task_end" <;>
          simp [stepLine, hp, hph, taskTransition, tagStep, he]

/-- The walker's segment count over a list of lines is the initial count
plus the pair count of the phase tags, from any open state. -/
lemma foldl_segments_count (file : String) (lines : List (List Char)) :
    ∀ (st : AnalyzerState) (cur : Option OpenTask),
      ((lines.foldl (stepLine file) (st, cur)).1).task_segments.length
        = st.task_segments.length + pairCountFrom cur.isSome (lines.map phaseTag) := by
  induction lines with
  | nil => intro st cur; simp [pairCountFrom]
  | cons l ls ih =>
    intro st cur
    have h := stepLine_tagged file st cur l
    rw [List.foldl_cons]
    rcases hsl : stepLine file (st, cur) l with ⟨st1, cur1⟩
    rw [hsl] at h
    rw [List.map_cons, pairCountFrom, ih st1 cur1, h.1, h.2]
    omega

/-- One walker step only ever appends segments whose duration is the
difference of their end and start times. -/
lemma stepLine_duration (file : String) (acc : AnalyzerState × Option OpenTask)
    (line : List Char)
    (h : ∀ s ∈ acc.1.task_segments, s.duration = s.end_time - s.start_time) :
    ∀ s ∈ ((stepLine file acc line).1).task_segments,
      s.duration = s.end_time - s.start_time := by
  rcases acc with ⟨st, cur⟩
  cases hp : parse_timestamp line with
  | none => simpa [stepLine, hp] using h
  | some ts =>
    cases hph : detect_task_phase line with
    | none =>
      cases cur <;> simpa [stepLine, hp, hph, taskTransition] using h
    | some p =>
      cases cur with
      | none =>
        by_cases hs : p == "task_start" <;>
          simpa [stepLine, hp, hph, taskTransition, hs] using h
      | some c =>
        by_cases he : p == "task_end"
        · intro s hsmem
          simp only [stepLine, hp, hph, taskTransition, he, if_pos] at hsmem
          rcases List.mem_append.1 hsmem with hsmem | hsmem
          · exact h s hsmem
          · simp only [List.mem_singleton] at hsmem
            subst hsmem
            rfl
        · simpa [stepLine, hp, hph, taskTransition, he] using h

/-- C2: for any per-file line sequence, the walker emits exactly one
task segment per complete, non-nested start-before-end pair of its phase
tags (a start while open is ignored, an end while closed emits nothing,
and a task still open at end of file is discarded), and every emitted
segment's duration is its end time minus its start time in seconds. -/
theorem task_segmenter_invariant (file : String) (lines : List (List Char)) :
    (analyze_log_file file lines emptyState).task_segments.length
      = completePairCount (lines.map phaseTag) ∧
    ∀ seg ∈ (analyze_log_file file lines emptyState).task_segments,
      seg.duration = seg.end_time - seg.start_time := by
  constructor
  · have h := foldl_segments_count file lines emptyState none
    simpa [analyze_log_file, emptyState, completePairCount] using h
  · have h := foldl_pres
      (fun acc : AnalyzerState × Option OpenTask =>
        ∀ s ∈ acc.1.task_segments, s.duration = s.end_time - s.start_time)
      (stepLine file) (stepLine_duration file) lines (emptyState, none)
      (by simp [emptyState])
    exact h

/-- C2 witness: the invariant applied to the two-line log and its one
segment. -/
theorem task_segmenter_invariant_witness :
    twoLineSeg.duration = twoLineSeg.end_time - twoLineSeg.start_time :=
  (task_segmenter_invariant "robot2.log" [l1, l3]).2 twoLineSeg (by decide)

/-- Appending an event that is not an end marker keeps an event list
well formed. -/
lemma eventsOK_append (evs : List Event) (startT : ℤ) (e : Event)
    (h : eventsOK evs startT) (he : detect_task_phase e.line ≠ some "task_end") :
    eventsOK (evs ++ [e]) startT := by
  obtain ⟨⟨e0, rest, heq, ht, hph⟩, hall⟩ := h
  refine ⟨⟨e0, rest ++ [e], by simp [heq], ht, hph⟩, ?_⟩
  intro x hx
  rcases List.mem_append.1 hx with hx | hx
  · exact hall x hx
  · simp only [List.mem_singleton] at hx
    subst hx
    exact he

/-- The singleton event list created when a task opens is well formed:
its one event is the opening line itself. -/
lemma eventsOK_opening (ts : ℤ) (line : List Char) (pos : Option PositionRecord)
    (anoms : List AnomalyEvent) (h : detect_task_phase line = some "task_start") :
    eventsOK [⟨ts, line, pos, anoms⟩] ts := by
  refine ⟨⟨⟨ts, line, pos, anoms⟩, [], rfl, rfl, h⟩, ?_⟩
  intro x hx
  simp only [List.mem_singleton] at hx
  subst hx
  rw [h]
  simp

/-- One walker step preserves well-formedness of the open task's and of
every emitted segment's event list. -/
lemma stepLine_eventsOK (file : String) (acc : AnalyzerState × Option OpenTask)
    (line : List Char)
    (h : (∀ s ∈ acc.1.task_segments, eventsOK s.events s.start_time) ∧ curOK acc.2) :
    (∀ s ∈ ((stepLine file acc line).1).task_segments, eventsOK s.events s.start_time) ∧
    curOK (stepLine file acc line).2 := by
  obtain ⟨h1, h2⟩ := h
  rcases acc with ⟨st, cur⟩
  cases hp : parse_timestamp line with
  | none => exact ⟨by simpa [stepLine, hp] using h1, by simpa [stepLine, hp] using h2⟩
  | some ts =>
    cases hph : detect_task_phase line with
    | none =>
      cases cur with
      | none =>
        constructor
        · simpa [stepLine, hp, hph, taskTransition] using h1
        · simp [stepLine, hp, hph, taskTransition, curOK]
      | some c =>
        constructor
        · simpa [stepLine, hp, hph, taskTransition] using h1
        · have hc : eventsOK c.events c.start_time := h2
          simp only [stepLine, hp, hph, taskTransition, curOK]
          exact eventsOK_append c.events c.start_time ⟨ts, line, _, _⟩ hc (by simp [hph])
    | some p =>
      cases cur with
      | none =>
        by_cases hs : p == "task_start"
        · have hps : p = "task_start" := by simpa using hs
          constructor
          · simpa [stepLine, hp, hph, taskTransition, hs] using h1
          · simp only [stepLine, hp, hph, taskTransition, hs, if_pos, curOK,
              List.nil_append]
            exact eventsOK_opening ts line _ _ (by rw [hph, hps])
        · constructor
          · simpa [stepLine, hp, hph, taskTransition, hs] using h1
          · simp [stepLine, hp, hph, taskTransition, hs, curOK]
      | some c =>
        have hc : eventsOK c.events c.start_time := h2
        by_cases he : p == "task_end"
        · constructor
          · intro s hsmem
            simp only [stepLine, hp, hph, taskTransition, he, if_pos] at hsmem
            rcases List.mem_append.1 hsmem with hsmem | hsmem
            · exact h1 s hsmem
            · simp only [List.mem_singleton] at hsmem
              subst hsmem
              exact hc
          · simp [stepLine, hp, hph, taskTransition, he, curOK]
        · constructor
          · simpa [stepLine, hp, hph, taskTransition, he] using h1
          · simp only [stepLine, hp, hph, taskTransition, he, if_neg, curOK]
            refine eventsOK_append c.events c.start_time ⟨ts, line, _, _⟩ hc ?_
            rw [hph]
            intro hcon
            cases hcon
            exact he (by simp)

/-- C10: every emitted task segment's event list starts with the event
of the line whose start match opened the task (stamped with the
segment's start time), and never contains an end-marker line — the
closing line is dropped because the open-task pointer is cleared before
the per-line event append. -/
theorem segment_events_markers (file : String) (lines : List (List Char)) :
    ∀ seg ∈ (analyze_log_file file lines emptyState).task_segments,
      (∃ e rest, seg.events = e :: rest ∧ e.timestamp = seg.start_time ∧
        detect_task_phase e.line = some "task_start") ∧
      ∀ e ∈ seg.events, detect_task_phase e.line ≠ some "task_end" := by
  have h := foldl_pres
    (fun acc : AnalyzerState × Option OpenTask =>
      (∀ s ∈ acc.1.task_segments, eventsOK s.events s.start_time) ∧ curOK acc.2)
    (stepLine file) (stepLine_eventsOK file) lines (emptyState, none)
    (by exact ⟨by simp [emptyState], trivial⟩)
  exact h.1

/-- C10 witness: the marker theorem applied to the two-line log. -/
theorem segment_events_markers_witness :
    (∃ e rest, twoLineSeg.events = e :: rest ∧ e.timestamp = twoLineSeg.start_time ∧
      detect_task_phase e.line = some "task_start") ∧
    ∀ e ∈ twoLineSeg.events, detect_task_phase e.line ≠ some "task_end" :=
  segment_events_markers "robot2.log" [l1, l3] twoLineSeg (by decide)

/-- One extraction step appends only segments that pass the minimum
duration filter. -/
lemma hStep_min_duration (tz : ℚ) (file : String)
    (acc : List HTaskSegment × Option HOpenTask) (line : List Char)
    (h : ∀ s ∈ acc.1, min_task_duration_minutes * 60 ≤ s.duration) :
    ∀ s ∈ (hStep tz file acc line).1, min_task_duration_minutes * 60 ≤ s.duration := by
  rcases acc with ⟨segs, cur⟩
  cases hp : parse_timestamp_hist tz line with
  | none => simpa [hStep, hp] using h
  | some ts =>
    intro s hs
    by_cases hend : (h_task_end.any (fun p => searchTok p line)) = true
    · rcases cur with _ | c
      · by_cases hst : (h_task_start.any (fun p => searchTok p line)) = true
        · by_cases hdur : min_task_duration_minutes * 60 ≤ (0 : ℚ)
          · simp [hStep, hp, hst, hend, sub_self, hdur] at hs
            rcases hs with hs | hs
            · exact h s hs
            · subst hs
              exact hdur
          · simp [hStep, hp, hst, hend, sub_self, hdur] at hs
            exact h s hs
        · simp [hStep, hp, hst, hend] at hs
          exact h s hs
      · by_cases hdur : min_task_duration_minutes * 60 ≤ ts - c.start_time
        · by_cases hst : (h_task_start.any (fun p => searchTok p line)) = true <;>
          · simp [hStep, hp, hst, hend, hdur] at hs
            rcases hs with hs | hs
            · exact h s hs
            · subst hs
              exact hdur
        · by_cases hst : (h_task_start.any (fun p => searchTok p line)) = true <;>
          · simp [hStep, hp, hst, hend, hdur] at hs
            exact h s hs
    · rcases cur with _ | c <;>
        by_cases hst : (h_task_start.any (fun p => searchTok p line)) = true <;>
        · simp [hStep, hp, hst, hend] at hs
          exact h s hs

/-- C9: every task segment the historical extractor appends has
duration at least the minimum of five minutes — three hundred
seconds; shorter completed tasks are silently dropped. -/
theorem extract_min_duration (tz : ℚ) (file : String) (lines : List (List Char)) :
    ∀ seg ∈ extract_task_segments tz file lines, (300 : ℚ) ≤ seg.duration := by
  have h300 : min_task_duration_minutes * 60 = (300 : ℚ) := by
    norm_num [min_task_duration_minutes]
  have h := foldl_pres
    (fun acc : List HTaskSegment × Option HOpenTask =>
      ∀ s ∈ acc.1, min_task_duration_minutes * 60 ≤ s.duration)
    (hStep tz file) (hStep_min_duration tz file) lines ([], none) (by simp)
  intro seg hseg
  have h2 := h seg hseg
  rw [h300] at h2
  exact h2

/-- Evaluation of the historical extractor on the two-line log: one
segment, the one of histSeg. -/
lemma extract_two_line_run :
    extract_task_segments 0 "hist.log" [l1, l3] = [histSeg] := by
  have hp1 : parse_timestamp_hist 0 l1 = some ((civilSecs 2025 1 1 10 0 0 : ℤ) : ℚ) := by
    decide
  have hp2 : parse_timestamp_hist 0 l3 = some ((civilSecs 2025 1 1 10 10 0 : ℤ) : ℚ) := by
    decide
  have hst1 : (h_task_start.any (fun p => searchTok p l1)) = true := by decide
  have hend1 : (h_task_end.any (fun p => searchTok p l1)) = false := by decide
  have hst2 : (h_task_start.any (fun p => searchTok p l3)) = false := by decide
  have hend2 : (h_task_end.any (fun p => searchTok p l3)) = true := by decide
  have hsu2 : (h_task_success.any (fun p => searchTok p l3)) = false := by decide
  have hfa2 : (h_task_failure.any (fun p => searchTok p l3)) = false := by decide
  have hcl1 : classify_event_type l1 = "general" := by decide
  have hz : (civilSecs 2025 1 1 10 10 0 : ℤ) - civilSecs 2025 1 1 10 0 0 = 600 := by decide
  have hsub : ((civilSecs 2025 1 1 10 10 0 : ℤ) : ℚ) - ((civilSecs 2025 1 1 10 0 0 : ℤ) : ℚ)
      = (600 : ℚ) := by
    rw [← Int.cast_sub, hz]
    norm_num
  have hcond : min_task_duration_minutes * 60 ≤ (600 : ℚ) := by
    norm_num [min_task_duration_minutes]
  unfold extract_task_segments
  rw [List.foldl_cons, List.foldl_cons, List.foldl_nil]
  have step1 : hStep 0 "hist.log" ([], none) l1
      = ([], some ⟨((civilSecs 2025 1 1 10 0 0 : ℤ) : ℚ), "hist.log",
          [⟨((civilSecs 2025 1 1 10 0 0 : ℤ) : ℚ), l1, "general"⟩], "running"⟩) := by
    simp [hStep, hp1, hst1, hend1, hcl1]
  rw [step1]
  have step2 : hStep 0 "hist.log"
      ([], some ⟨((civilSecs 2025 1 1 10 0 0 : ℤ) : ℚ), "hist.log",
        [⟨((civilSecs 2025 1 1 10 0 0 : ℤ) : ℚ), l1, "general"⟩], "running"⟩) l3
      = ([histSeg], none) := by
    simp [hStep, hp2, hst2, hend2, hsu2, hfa2, hsub, hcond, histSeg]
  rw [step2]

/-- C9 witness: the minimum-duration theorem applied to the segment the
extractor emits for a ten-minute task. -/
theorem extract_min_duration_witness : (300 : ℚ) ≤ histSeg.duration :=
  extract_min_duration 0 "hist.log" [l1, l3] histSeg
    (by rw [extract_two_line_run]; exact List.mem_singleton.2 rfl)

/- ---------------------------------------------------------------
   Stop-point lemmas.
   --------------------------------------------------------------- -/

lemma succDeltas_length (f : PositionRecord → ℚ) :
    ∀ l : List PositionRecord, (succDeltas f l).length = l.length - 1
  | [] => rfl
  | [_] => rfl
  | a :: b :: rest => by
    rw [succDeltas]
    simp [succDeltas_length f (b :: rest)]

lemma succDeltas_zero (f : PositionRecord → ℚ) (c : ℚ) :
    ∀ l : List PositionRecord, (∀ a ∈ l, f a = c) →
      ∀ d ∈ succDeltas f l, d = 0
  | [], _, d, hd => by cases hd
  | [_], _, d, hd => by cases hd
  | a :: b :: rest, h, d, hd => by
    rw [succDeltas] at hd
    rcases List.mem_cons.1 hd with rfl | hd
    · rw [h a (by simp), h b (by simp)]
      simp
    · exact succDeltas_zero f c (b :: rest)
        (fun x hx => h x (List.mem_cons_of_mem a hx)) d hd

lemma avgQ_zero (l : List ℚ) (h : ∀ d ∈ l, d = 0) : avgQ l = 0 := by
  rw [avgQ, List.sum_eq_zero h, zero_div]

lemma sum_lower (c : ℚ) :
    ∀ l : List ℚ, l ≠ [] → (∀ d ∈ l, c < d) → c * l.length < l.sum
  | [], h, _ => absurd rfl h
  | [d], _, h => by
    have := h d (by simp)
    simpa using this
  | d :: d2 :: rest, _, h => by
    have h1 : c < d := h d (by simp)
    have h2 : c * ((d2 :: rest).length : ℚ) < (d2 :: rest).sum :=
      sum_lower c (d2 :: rest) (by simp) (fun x hx => h x (List.mem_cons_of_mem d hx))
    have hlen : ((d :: d2 :: rest).length : ℚ) = ((d2 :: rest).length : ℚ) + 1 := by
      push_cast [List.length_cons]
      ring
    rw [hlen, List.sum_cons, mul_add, mul_one]
    linarith

lemma avgQ_lower (c : ℚ) (l : List ℚ) (hne : l ≠ [])
    (h : ∀ d ∈ l, c < d) : c < avgQ l := by
  have hlen : 0 < (l.length : ℚ) := by
    have : 0 < l.length := List.length_pos.2 hne
    exact_mod_cast this
  rw [avgQ, lt_div_iff₀ hlen]
  exact sum_lower c l hne h

lemma succDeltas_chain (f : PositionRecord → ℚ) (c : ℚ) :
    ∀ l : List PositionRecord, List.Chain' (fun a b => c < f b - f a) l →
      ∀ d ∈ succDeltas f l, c < d
  | [], _, d, hd => by cases hd
  | [_], _, d, hd => by cases hd
  | a :: b :: rest, h, d, hd => by
    rw [succDeltas] at hd
    rcases List.mem_cons.1 hd with rfl | hd
    · have hab : c < f b - f a := (List.chain'_cons.1 h).1
      exact lt_of_lt_of_le hab (le_abs_self _)
    · exact succDeltas_chain f c (b :: rest) (List.chain'_cons.1 h).2 d hd

lemma out_in_compl (t W : ℤ) (q : PositionRecord) :
    outOfWindow t W q = !inWindow t W q := by
  by_cases h : W * 60 < t - q.timestamp
  · simp [outOfWindow, inWindow, h, not_le.2 h]
  · simp [outOfWindow, inWindow, h, not_lt.1 h]

/-- On a list sorted by timestamp, popping the out-of-window prefix is
the same as filtering for the window: out-of-window points form a
prefix. -/
lemma dropWhile_out_eq_filter_in (t W : ℤ) :
    ∀ l : List PositionRecord, tsSorted l →
      l.dropWhile (outOfWindow t W) = l.filter (inWindow t W)
  | [], _ => rfl
  | q :: l, hs => by
    obtain ⟨hq, hl⟩ := List.pairwise_cons.1 hs
    by_cases hout : W * 60 < t - q.timestamp
    · have h1 : outOfWindow t W q = true := by simp [outOfWindow, hout]
      have h2 : inWindow t W q = false := by simp [inWindow, not_le.2 hout]
      rw [List.dropWhile_cons, h1, List.filter_cons, h2]
      simp only [if_true]
      exact dropWhile_out_eq_filter_in t W l hl
    · have h1 : outOfWindow t W q = false := by simp [outOfWindow, hout]
      have h2 : inWindow t W q = true := by simp [inWindow, not_lt.1 hout]
      rw [List.dropWhile_cons, h1, List.filter_cons, h2]
      simp only [Bool.false_eq_true, if_false, if_true]
      have : l.filter (inWindow t W) = l := by
        rw [List.filter_eq_self]
        intro r hr
        have : t - r.timestamp ≤ t - q.timestamp := by
          have := hq r hr
          omega
        simp only [inWindow, decide_eq_true_eq]
        omega
      rw [this]

lemma dropWhile_isSuffix {α : Type} (p : α → Bool) :
    ∀ l : List α, l.dropWhile p <:+ l
  | [] => List.suffix_refl []
  | a :: l => by
    by_cases h : p a
    · rw [List.dropWhile_cons, if_pos h]
      exact (dropWhile_isSuffix p l).trans (List.suffix_cons a l)
    · rw [List.dropWhile_cons, if_neg h]

lemma stopSpec_append (W : ℤ) :
    ∀ (left : List PositionRecord) (pre rest2 : List PositionRecord),
      stopSpec W pre (left ++ rest2)
        = stopSpec W pre left ++ stopSpec W (pre ++ left) rest2
  | [], pre, rest2 => by simp [stopSpec]
  | a :: left, pre, rest2 => by
    rw [List.cons_append, stopSpec, stopSpec, stopSpec_append W left (pre ++ [a]) rest2]
    simp [List.append_assoc]

/-- The deque scan refines the prefix-filter description: provided the
processed prefix splits into already-dropped points (all more than a
window older than everything still to come) followed by the deque, the
two scans agree. -/
lemma stopLoop_eq_spec (W : ℤ) :
    ∀ (rest dropped win : List PositionRecord),
      tsSorted ((dropped ++ win) ++ rest) →
      (∀ q ∈ dropped, ∀ r ∈ rest, W * 60 < r.timestamp - q.timestamp) →
      stopLoop W win rest = stopSpec W (dropped ++ win) rest
  | [], dropped, win, _, _ => rfl
  | p :: rest2, dropped, win, hsort, hdrop => by
    have hsplit : (dropped ++ win) ++ p :: rest2 = dropped ++ ((win ++ [p]) ++ rest2) := by
      simp [List.append_assoc]
    have hwinp_sorted : tsSorted (win ++ [p]) := by
      have hpl : List.Sublist [p] (p :: rest2) :=
        List.Sublist.cons₂ p (List.nil_sublist rest2)
      have h2 : List.Sublist (win ++ [p]) (win ++ p :: rest2) := hpl.append_left win
      have h3 : List.Sublist (win ++ p :: rest2) (dropped ++ (win ++ p :: rest2)) :=
        (List.suffix_append dropped (win ++ p :: rest2)).sublist
      have hsub : List.Sublist (win ++ [p]) ((dropped ++ win) ++ p :: rest2) := by
        rw [List.append_assoc]
        exact h2.trans h3
      exact hsort.sublist hsub
    have hprest : ∀ r ∈ rest2, p.timestamp ≤ r.timestamp := by
      have hsub : List.Sublist (p :: rest2) ((dropped ++ win) ++ p :: rest2) :=
        (List.suffix_append (dropped ++ win) (p :: rest2)).sublist
      have := (List.pairwise_cons.1 (hsort.sublist hsub)).1
      exact this
    have hfilterdrop : dropped.filter (inWindow p.timestamp W) = [] := by
      rw [List.filter_eq_nil_iff]
      intro q hq
      have := hdrop q hq p (List.mem_cons_self p rest2)
      simp only [inWindow, decide_eq_true_eq]
      omega
    have hwin1 : (win ++ [p]).dropWhile (outOfWindow p.timestamp W)
        = ((dropped ++ win) ++ [p]).filter (inWindow p.timestamp W) := by
      rw [List.append_assoc, List.filter_append, hfilterdrop, List.nil_append]
      exact dropWhile_out_eq_filter_in p.timestamp W (win ++ [p]) hwinp_sorted
    have hih := stopLoop_eq_spec W rest2
      (dropped ++ (win ++ [p]).takeWhile (outOfWindow p.timestamp W))
      ((win ++ [p]).dropWhile (outOfWindow p.timestamp W))
      (by
        rw [List.append_assoc dropped ((win ++ [p]).takeWhile (outOfWindow p.timestamp W))
          ((win ++ [p]).dropWhile (outOfWindow p.timestamp W))]
        rw [List.takeWhile_append_dropWhile]
        have heq : (dropped ++ (win ++ [p])) ++ rest2 = (dropped ++ win) ++ p :: rest2 := by
          simp [List.append_assoc]
        rw [heq]
        exact hsort)
      (by
        intro q hq r hr
        rcases List.mem_append.1 hq with hq | hq
        · exact hdrop q hq r (List.mem_cons_of_mem p hr)
        · have hqo : outOfWindow p.timestamp W q = true := List.mem_takeWhile_imp hq
          have hqlt : W * 60 < p.timestamp - q.timestamp := by
            simpa [outOfWindow] using hqo
          have := hprest r hr
          omega)
    rw [stopLoop, stopSpec]
    congr 1
    · rw [hwin1]
    · rw [hih]
      have heq2 : (dropped ++ (win ++ [p]).takeWhile (outOfWindow p.timestamp W)) ++
          (win ++ [p]).dropWhile (outOfWindow p.timestamp W) = (dropped ++ win) ++ [p] := by
        rw [List.append_assoc, List.takeWhile_append_dropWhile]
        simp [List.append_assoc]
      rw [heq2]

/-- Over a run whose x coordinate advances by more than the threshold at
every successive point, the scan never emits: every window is an infix
run with all deltas above the threshold, so the mean stays above it. -/
lemma stopLoop_moving (W : ℤ) :
    ∀ (rest win : List PositionRecord),
      List.Chain' (fun a b => 1 / 100 < b.x - a.x) (win ++ rest) →
      stopLoop W win rest = []
  | [], _, _ => rfl
  | p :: rest2, win, hch => by
    have hch1 : List.Chain' (fun a b => 1 / 100 < b.x - a.x) ((win ++ [p]) ++ rest2) := by
      have : win ++ p :: rest2 = (win ++ [p]) ++ rest2 := by simp
      rwa [this] at hch
    have hsuffix : (win ++ [p]).dropWhile (outOfWindow p.timestamp W) <:+ (win ++ [p]) :=
      dropWhile_isSuffix _ (win ++ [p])
    have hchwin : List.Chain' (fun a b => 1 / 100 < b.x - a.x)
        ((win ++ [p]).dropWhile (outOfWindow p.timestamp W)) :=
      (hch1.left_of_append).suffix hsuffix
    have hchnext : List.Chain' (fun a b => 1 / 100 < b.x - a.x)
        ((win ++ [p]).dropWhile (outOfWindow p.timestamp W) ++ rest2) := by
      obtain ⟨u, hu⟩ := hsuffix
      refine hch1.suffix ⟨u, ?_⟩
      rw [← List.append_assoc, hu]
    have hemit : stopEmit W ((win ++ [p]).dropWhile (outOfWindow p.timestamp W)) p = [] := by
      set win1 := (win ++ [p]).dropWhile (outOfWindow p.timestamp W) with hwin1
      by_cases h5 : 5 ≤ win1.length
      · have hdeltas : ∀ d ∈ succDeltas xOf win1, 1 / 100 < d := by
          have := succDeltas_chain xOf (1 / 100) win1
          intro d hd
          apply this _ d hd
          simpa [xOf] using hchwin
        have hne : succDeltas xOf win1 ≠ [] := by
          have hlen := succDeltas_length xOf win1
          intro hcon
          rw [hcon] at hlen
          simp at hlen
          omega
        have hgt : 1 / 100 < avgQ (succDeltas xOf win1) :=
          avgQ_lower (1 / 100) _ hne hdeltas
        rw [stopEmit, if_pos h5, if_neg]
        intro hcon
        exact absurd (hcon.1.trans hgt) (lt_irrefl _)
      · rw [stopEmit, if_neg h5]
    rw [stopLoop, hemit, List.nil_append]
    exact stopLoop_moving W rest2 _ hchnext

/-- C3 (amended): over the time-sorted position list, (i) any all-
identical position sequence whose final window holds at least the five
point minimum yields a stop point at the last point; (ii) a sequence
whose x advances by more than the threshold at every step never yields
a stop point; (iii) in general the deque scan emits exactly as the
prefix-filter description does: a stop point at the current timestamp
exactly when the window of points at most W minutes old holds at least
five points and both coordinate mean absolute successive deltas are
below 0.01. -/
theorem stop_point_characterization (W : ℤ) :
    (∀ (init : List PositionRecord) (p : PositionRecord) (cx cy : ℚ),
      tsSorted (init ++ [p]) →
      (∀ q ∈ init ++ [p], q.x = cx ∧ q.y = cy) →
      5 ≤ ((init ++ [p]).filter (inWindow p.timestamp W)).length →
      ∃ sp ∈ detect_stop_points (init ++ [p]) W,
        sp.timestamp = p.timestamp ∧ sp.position = p) ∧
    (∀ L : List PositionRecord,
      List.Chain' (fun a b => 1 / 100 < b.x - a.x) L →
      detect_stop_points L W = []) ∧
    (∀ L : List PositionRecord, tsSorted L →
      detect_stop_points L W = stopSpec W [] L) := by
  have hspec : ∀ L : List PositionRecord, tsSorted L →
      detect_stop_points L W = stopSpec W [] L := by
    intro L hs
    have := stopLoop_eq_spec W L [] []
    simp only [List.append_nil, List.nil_append] at this
    exact this hs (by intro q hq; cases hq)
  refine ⟨?_, ?_, hspec⟩
  · intro init p cx cy hsort hconst hcount
    have heq := hspec (init ++ [p]) hsort
    rw [heq, stopSpec_append W init [] [p], List.nil_append]
    have hwin : stopSpec W init [p]
        = stopEmit W ((init ++ [p]).filter (inWindow p.timestamp W)) p := by
      rw [stopSpec, stopSpec]
      simp
    rw [hwin]
    set win := (init ++ [p]).filter (inWindow p.timestamp W) with hwindef
    have hwinx : ∀ d ∈ succDeltas xOf win, d = 0 := by
      apply succDeltas_zero xOf cx
      intro q hq
      have hq2 : q ∈ init ++ [p] := List.mem_of_mem_filter hq
      exact (hconst q hq2).1
    have hwiny : ∀ d ∈ succDeltas yOf win, d = 0 := by
      apply succDeltas_zero yOf cy
      intro q hq
      have hq2 : q ∈ init ++ [p] := List.mem_of_mem_filter hq
      exact (hconst q hq2).2
    have hax : avgQ (succDeltas xOf win) = 0 := avgQ_zero _ hwinx
    have hay : avgQ (succDeltas yOf win) = 0 := avgQ_zero _ hwiny
    have hcond : avgQ (succDeltas xOf win) < 1 / 100 ∧ avgQ (succDeltas yOf win) < 1 / 100 := by
      rw [hax, hay]
      norm_num
    rw [stopEmit, if_pos hcount, if_pos hcond]
    exact ⟨⟨p.timestamp, p, W, (avgQ (succDeltas xOf win) + avgQ (succDeltas yOf win)) / 2⟩,
      List.mem_append_right _ (List.mem_singleton.2 rfl), rfl, rfl⟩
  · intro L hch
    have := stopLoop_moving W L []
    simp only [List.nil_append] at this
    exact this hch

/-- C3 counterexample: four identical positions spanning exactly the
ten-minute window — identical coordinates repeated across a span equal
to the window size — yield no stop point at all, because the window
never reaches the five point minimum. -/
theorem stop_point_identical_span_false :
    idFour.all (fun q => q.x == 1 && q.y == 2) = true ∧
    idFour.map PositionRecord.timestamp = [0, 200, 400, 600] ∧
    detect_stop_points idFour 10 = [] := by
  refine ⟨by decide, by decide, by decide⟩

/-- C3 witness: the characterization applied to five identical points
(a stop point appears at the last of them) and to five strictly
advancing points (no stop point appears). -/
theorem stop_point_characterization_witness :
    (∃ sp ∈ detect_stop_points idFive 10,
      sp.timestamp = (400 : ℤ) ∧ sp.position = mkSlam 400 1 2) ∧
    detect_stop_points movFive 10 = [] := by
  constructor
  · have h := (stop_point_characterization 10).1
      [mkSlam 0 1 2, mkSlam 100 1 2, mkSlam 200 1 2, mkSlam 300 1 2]
      (mkSlam 400 1 2) 1 2 (by decide) (by decide) (by decide)
    simpa [idFive, mkSlam] using h
  · refine (stop_point_characterization 10).2.1 movFive ?_
    simp only [movFive, mkSlam, List.chain'_cons, List.chain'_singleton, and_true]
    norm_num

end LogReader
